import Mathlib

/-!
Shallow embedding of the `better-auth-metadata` server plugin
(`src/index.ts`, exported as the four endpoints `setMetadata`,
`getMetadata`, `updateMetadata`, `deleteMetadata`).

Modelling conventions:
* JSON values are the inductive `Json`.  JSON numbers are modelled as
  integers (no claim computes with non-integer numbers, NaN or infinities).
* JavaScript `undefined` is modelled as `Option.none` wherever a value can
  be absent (an absent body field, a missing object property, a missing
  database record or column).
* The TypeScript source is an ES module, hence strict mode: assigning a
  property to a primitive (string / number / boolean / null) raises a
  `TypeError`.  Property reads are modelled for own properties of objects
  plus `length`/index reads of arrays and strings; prototype-chain lookups
  (e.g. `"x".toString`) are not modelled, no claim exercises them.
  Assigning a non-index property to an array is modelled as a no-op, which
  is observationally equal to the real behaviour because `JSON.stringify`
  (and the JSON response encoder) drop such properties.
* The storage adapter is a map from user ids to user records; each endpoint
  returns its result, the resulting store, and the exact trace of adapter
  calls (`findOne` / `update`) it performed, in order.
-/

namespace MetadataPlugin

/-- A JSON value. Numbers are modelled as integers. -/
inductive Json where
  | null : Json
  | bool (b : Bool) : Json
  | num (n : Int) : Json
  | str (s : String) : Json
  | arr (elems : List Json) : Json
  | obj (fields : List (String × Json)) : Json

/-- JavaScript truthiness of a JSON value (`NaN` is out of the model). -/
def truthy : Json → Bool
  | .null => false
  | .bool b => b
  | .num n => n != 0
  | .str s => s != ""
  | .arr _ => true
  | .obj _ => true

/-- Truthiness of a possibly-`undefined` value. -/
def truthyOpt : Option Json → Bool
  | none => false
  | some j => truthy j

/-- First-match lookup of a key among an object's own properties. -/
def objLookup (fields : List (String × Json)) (k : String) : Option Json :=
  match fields with
  | [] => none
  | (k', v) :: rest => if k' = k then some v else objLookup rest k

/-- JavaScript property assignment on an object's field list: an existing
key is overwritten in place (insertion order is preserved), a new key is
appended. -/
def objInsert (fields : List (String × Json)) (k : String) (v : Json) :
    List (String × Json) :=
  match fields with
  | [] => [(k, v)]
  | (k', v') :: rest =>
      if k' = k then (k, v) :: rest else (k', v') :: objInsert rest k v

/-- Build an object field list from an entry sequence, later entries
overwriting earlier ones in place (JavaScript object construction order). -/
def objFromEntries (entries : List (String × Json)) : List (String × Json) :=
  entries.foldl (fun acc p => objInsert acc p.1 p.2) []

/-- `Json.isObj` holds exactly for mappings. -/
def Json.isObj : Json → Bool
  | .obj _ => true
  | _ => false

/-- The canonical array/string index denoted by a property key, if any
(`"1"` is an index, `"01"` or `"x"` are not). -/
def keyIndex (k : String) : Option Nat :=
  match k.toNat? with
  | some i => if toString i = k then some i else none
  | none => none

/-- JavaScript property read `current[k]`, restricted to own properties of
objects and `length`/index reads of arrays and strings; `none` is
`undefined`. -/
def jsGet : Json → String → Option Json
  | .obj fields, k => objLookup fields k
  | .arr xs, k =>
      if k = "length" then some (.num xs.length)
      else match keyIndex k with
        | some i => xs.get? i
        | none => none
  | .str s, k =>
      if k = "length" then some (.num s.length)
      else match keyIndex k with
        | some i => (s.toList.get? i).map (fun c => .str (String.singleton c))
        | none => none
  | _, _ => none

/-- Write `v` at index `i` of an array, padding with `null` the way a JSON
round-trip renders the holes JavaScript would create. -/
def arrSetIdx (xs : List Json) (i : Nat) (v : Json) : List Json :=
  if i < xs.length then xs.set i v
  else xs ++ List.replicate (i - xs.length) Json.null ++ [v]

/-- JavaScript strict-mode property assignment `current[k] = v`.  On an
object it inserts/overwrites; on an array an index write is performed and a
non-index write is dropped (as serialization would drop it); on a primitive
it raises a `TypeError`. -/
def jsSet : Json → String → Json → Except String Json
  | .obj fields, k, v => .ok (.obj (objInsert fields k v))
  | .arr xs, k, v =>
      (match keyIndex k with
        | some i => .ok (.arr (arrSetIdx xs i v))
        | none => .ok (.arr xs))
  | _, k, _ => .error ("TypeError: Cannot create property " ++ k)

/-- The dot-path walk of `updateMetadata` (spec name `setPath`), on an
already-split key list:

```
for (let i = 0; i < keys.length - 1; i++) {
  if (!current[keys[i]]) { current[keys[i]] = {}; }
  current = current[keys[i]];
}
current[keys[keys.length - 1]] = value;
```

The in-place mutation through the `current` alias is rendered as a
functional update along the path (parsed JSON is a tree, so the two agree).
`keys = []` cannot arise from `split`. -/
def setPathKeys (current : Json) (keys : List String) (value : Json) :
    Except String Json :=
  match keys with
  | [] => .ok current
  | [k] => jsSet current k value
  | k :: rest =>
      if truthyOpt (jsGet current k) then
        match jsGet current k with
        | some child =>
            match setPathKeys child rest value with
            | .ok child' => jsSet current k child'
            | .error e => .error e
        | none => .ok current
      else
        match setPathKeys (Json.obj []) rest value with
        | .ok child' => jsSet current k child'
        | .error e => .error e

/-- `String.prototype.split(".")` on the characters of the path:
`"" ↦ [""]`, `"a.b" ↦ ["a","b"]`, `".a" ↦ ["","a"]`; never `[]`. -/
def splitDotAux : List Char → String → List String
  | [], acc => [acc]
  | c :: rest, acc =>
      if c = '.' then acc :: splitDotAux rest ""
      else splitDotAux rest (acc.push c)

/-- `path.split(".")`. -/
def splitDot (path : String) : List String :=
  splitDotAux path.toList ""

/-- `setPath(root, path, value)`: split the dot-path and walk. -/
def setPath (root : Json) (path : String) (value : Json) :
    Except String Json :=
  setPathKeys root (splitDot path) value

/-- Enumerable own entries contributed by object spread `{...j}`:
an object spreads its fields, an array and a string spread their indexed
elements, primitives spread nothing. -/
def spreadEntries : Json → List (String × Json)
  | .obj fields => fields
  | .arr xs => xs.enum.map (fun p => (toString p.1, p.2))
  | .str s => s.toList.enum.map
      (fun p => (toString p.1, Json.str (String.singleton p.2)))
  | _ => []

/-- `{ ...existing, ...incoming }` of `setMetadata`'s merge branch;
`incoming` may be `undefined` (spreading `undefined` contributes nothing). -/
def mergeSpread (existing : Json) (incoming : Option Json) : Json :=
  .obj (objFromEntries (spreadEntries existing ++
    (incoming.map spreadEntries).getD []))

/-! ## JSON serialization (`JSON.stringify` / `JSON.parse` of the host) -/

/-- Escape one character for a JSON string literal (the escapes the model's
value space can produce). -/
def escChar (c : Char) : String :=
  if c = '"' then "\\\""
  else if c = '\\' then "\\\\"
  else if c = '\n' then "\\n"
  else if c = '\t' then "\\t"
  else if c = '\r' then "\\r"
  else String.singleton c

/-- Escape a string for a JSON string literal. -/
def escString (s : String) : String :=
  s.toList.foldl (fun acc c => acc ++ escChar c) ""

mutual

/-- `JSON.stringify` (compact form, as the host produces with no spacing). -/
def jsonStringify : Json → String
  | .null => "null"
  | .bool true => "true"
  | .bool false => "false"
  | .num n => toString n
  | .str s => "\"" ++ escString s ++ "\""
  | .arr xs => "[" ++ stringifyElems xs ++ "]"
  | .obj fields => "\x7b" ++ stringifyMembers fields ++ "\x7d"

/-- Comma-separated serialization of array elements. -/
def stringifyElems : List Json → String
  | [] => ""
  | [x] => jsonStringify x
  | x :: rest => jsonStringify x ++ "," ++ stringifyElems rest

/-- Comma-separated serialization of object members. -/
def stringifyMembers : List (String × Json) → String
  | [] => ""
  | [(k, v)] => "\"" ++ escString k ++ "\":" ++ jsonStringify v
  | (k, v) :: rest =>
      "\"" ++ escString k ++ "\":" ++ jsonStringify v ++ "," ++
        stringifyMembers rest

end

/-- `JSON.stringify` of a possibly-`undefined` value
(`JSON.stringify(undefined)` is `undefined`, not a string). -/
def jsonStringifyOpt : Option Json → Option String :=
  Option.map jsonStringify

/-- JSON whitespace. -/
def isJsonWs (c : Char) : Bool :=
  c = ' ' || c = '\t' || c = '\n' || c = '\r'

/-- Drop leading JSON whitespace. -/
def skipWs : List Char → List Char
  | [] => []
  | c :: cs => if isJsonWs c then skipWs cs else c :: cs

/-- Parse the body of a JSON string literal (the opening quote already
consumed), handling the escapes of the model's value space; `\u` escapes
are outside the model. -/
def parseStrBody (cs : List Char) (acc : String) :
    Option (String × List Char) :=
  match cs with
  | [] => none
  | c :: rest =>
      if c = '"' then some (acc, rest)
      else if c = '\\' then
        match rest with
        | [] => none
        | e :: rest' =>
            if e = '"' then parseStrBody rest' (acc.push '"')
            else if e = '\\' then parseStrBody rest' (acc.push '\\')
            else if e = '/' then parseStrBody rest' (acc.push '/')
            else if e = 'n' then parseStrBody rest' (acc.push '\n')
            else if e = 't' then parseStrBody rest' (acc.push '\t')
            else if e = 'r' then parseStrBody rest' (acc.push '\r')
            else if e = 'b' then parseStrBody rest' (acc.push (Char.ofNat 8))
            else if e = 'f' then parseStrBody rest' (acc.push (Char.ofNat 12))
            else none
      else parseStrBody rest (acc.push c)

/-- Accumulate a run of decimal digits. -/
def parseDigits (cs : List Char) (acc : Nat) (seen : Bool) :
    Option (Nat × List Char) :=
  match cs with
  | [] => if seen then some (acc, []) else none
  | c :: rest =>
      if c.isDigit then parseDigits rest (acc * 10 + (c.toNat - 48)) true
      else if seen then some (acc, cs) else none

/-- Parse a JSON number.  Only integers are in the model's value space; a
fraction or exponent makes the parse fail rather than produce a wrong
value. -/
def parseNum (cs : List Char) : Option (Json × List Char) :=
  let (neg, cs') := match cs with
    | '-' :: rest => (true, rest)
    | _ => (false, cs)
  match parseDigits cs' 0 false with
  | none => none
  | some (n, rest) =>
      match rest with
      | c :: _ =>
          if c = '.' || c = 'e' || c = 'E' then none
          else some (.num (if neg then -(n : Int) else (n : Int)), rest)
      | [] => some (.num (if neg then -(n : Int) else (n : Int)), [])

mutual

/-- Fuel-indexed recursive-descent `JSON.parse` of one value. -/
def parseVal : Nat → List Char → Option (Json × List Char)
  | 0, _ => none
  | Nat.succ fuel, cs =>
      match skipWs cs with
      | [] => none
      | c :: rest =>
          if c = 'n' then
            match rest with
            | 'u' :: 'l' :: 'l' :: r => some (.null, r)
            | _ => none
          else if c = 't' then
            match rest with
            | 'r' :: 'u' :: 'e' :: r => some (.bool true, r)
            | _ => none
          else if c = 'f' then
            match rest with
            | 'a' :: 'l' :: 's' :: 'e' :: r => some (.bool false, r)
            | _ => none
          else if c = '"' then
            (parseStrBody rest "").map (fun p => (.str p.1, p.2))
          else if c = '[' then
            match skipWs rest with
            | ']' :: r => some (.arr [], r)
            | r => parseElems fuel r []
          else if c = '\x7b' then
            match skipWs rest with
            | '\x7d' :: r => some (.obj [], r)
            | r => parseMembers fuel r []
          else if c = '-' || c.isDigit then parseNum (c :: rest)
          else none

/-- Parse the elements of a non-empty array (after `[`). -/
def parseElems (fuel : Nat) (cs : List Char) (acc : List Json) :
    Option (Json × List Char) :=
  match fuel with
  | 0 => none
  | Nat.succ fuel' =>
      match parseVal fuel' cs with
      | none => none
      | some (v, rest) =>
          match skipWs rest with
          | ',' :: r => parseElems fuel' r (acc ++ [v])
          | ']' :: r => some (.arr (acc ++ [v]), r)
          | _ => none

/-- Parse the members of a non-empty object (after the opening brace);
a repeated key overwrites in place, as `JSON.parse` does. -/
def parseMembers (fuel : Nat) (cs : List Char)
    (acc : List (String × Json)) : Option (Json × List Char) :=
  match fuel with
  | 0 => none
  | Nat.succ fuel' =>
      match skipWs cs with
      | '"' :: r =>
          match parseStrBody r "" with
          | none => none
          | some (k, r2) =>
              match skipWs r2 with
              | ':' :: r3 =>
                  match parseVal fuel' r3 with
                  | none => none
                  | some (v, r4) =>
                      match skipWs r4 with
                      | ',' :: r5 => parseMembers fuel' r5 (objInsert acc k v)
                      | '\x7d' :: r5 => some (.obj (objInsert acc k v), r5)
                      | _ => none
              | _ => none
      | _ => none

end

/-- `JSON.parse`: parse one value and require only whitespace after it;
failure models the thrown `SyntaxError`. -/
def jsonParse (s : String) : Except String Json :=
  match parseVal (s.length * 2 + 16) s.toList with
  | some (j, rest) =>
      if (skipWs rest).isEmpty then .ok j
      else .error "SyntaxError: Unexpected token in JSON"
  | none => .error "SyntaxError: Unexpected token in JSON"

/-! ## The endpoint layer -/

/-- The user record as the endpoints see it: only the plugin's nullable
string column `metadata` matters; `none` covers both an absent and a null
column. -/
structure UserRec where
  metadata : Option String
deriving DecidableEq

/-- The storage adapter's state: user id to record (`none` = no record). -/
def DB := String → Option UserRec

/-- One adapter call, as issued by an endpoint. -/
inductive StorageOp where
  | findOne (userId : String) : StorageOp
  | update (userId : String) (metadata : Option String) : StorageOp
deriving DecidableEq

/-- `adapter.update({model: "user", where: id, data: {metadata}})`:
rewrite the record's metadata column; a missing record is left missing. -/
def dbWrite (db : DB) (uid : String) (v : Option String) : DB :=
  fun id => if id = uid then (db id).map (fun _ => UserRec.mk v) else db id

/-- Truthiness of `user?.metadata` (a JS string column: `undefined`, `null`
and `""` are falsy). -/
def storedTruthy : Option String → Bool
  | none => false
  | some s => s != ""

/-- The errors an endpoint can signal. -/
inductive ApiErr where
  | unauthorized : ApiErr
  | typeFail (msg : String) : ApiErr
  | parseFail (msg : String) : ApiErr
deriving DecidableEq

/-- Result of one endpoint invocation: the HTTP-level result, the storage
state afterwards, and the exact ordered trace of adapter calls. -/
structure Outcome (ρ : Type) where
  result : Except ApiErr ρ
  db : DB
  ops : List StorageOp

/-- Body of `POST /metadata/set`; `none` fields are absent (`undefined`). -/
structure SetBody where
  metadata : Option Json
  merge : Option Json

/-- Body of `POST /metadata/update`; an absent `path` is `undefined`.
(An absent `value` is outside the model; no claim exercises it.) -/
structure UpdateBody where
  path : Option String
  value : Json

/-- Response of `setMetadata`. -/
structure SetResp where
  metadata : Option Json
  success : Bool

/-- Response of `getMetadata` (`metadata: null` is `Json.null`). -/
structure GetResp where
  metadata : Json

/-- Response of `updateMetadata`. -/
structure UpdateResp where
  metadata : Json
  success : Bool

/-- Response of `deleteMetadata`. -/
structure DeleteResp where
  success : Bool

/-- The caller identity: `none` models every way `session?.user?.id` can be
missing; the id `""` is falsy and also rejected. -/
def validSession : Option String → Bool
  | none => false
  | some uid => uid != ""

/-- `POST /metadata/set`: authenticate, read the record, shallow-merge or
replace, persist the serialized result. -/
def setMetadata (session : Option String) (body : SetBody) (db : DB) :
    Outcome SetResp :=
  match session with
  | none => ⟨.error .unauthorized, db, []⟩
  | some uid =>
      if uid = "" then ⟨.error .unauthorized, db, []⟩
      else
        let user := db uid
        let mergeVal := body.merge.getD (Json.bool true)
        let finishWith : Option Json → Outcome SetResp := fun updated =>
          let data := jsonStringifyOpt updated
          ⟨.ok ⟨updated, true⟩, dbWrite db uid data,
            [.findOne uid, .update uid data]⟩
        match user.bind UserRec.metadata with
        | some s =>
            if truthy mergeVal && s != "" then
              match jsonParse s with
              | .error e => ⟨.error (.parseFail e), db, [.findOne uid]⟩
              | .ok existing =>
                  finishWith (some (mergeSpread existing body.metadata))
            else finishWith body.metadata
        | none => finishWith body.metadata

/-- `GET /metadata/get`: authenticate, read the record, deserialize a
truthy stored string, else respond `null`. -/
def getMetadata (session : Option String) (db : DB) : Outcome GetResp :=
  match session with
  | none => ⟨.error .unauthorized, db, []⟩
  | some uid =>
      if uid = "" then ⟨.error .unauthorized, db, []⟩
      else
        match (db uid).bind UserRec.metadata with
        | some s =>
            if s != "" then
              match jsonParse s with
              | .error e => ⟨.error (.parseFail e), db, [.findOne uid]⟩
              | .ok j => ⟨.ok ⟨j⟩, db, [.findOne uid]⟩
            else ⟨.ok ⟨Json.null⟩, db, [.findOne uid]⟩
        | none => ⟨.ok ⟨Json.null⟩, db, [.findOne uid]⟩

/-- `updateMetadata`'s load of the walk root:
`user?.metadata ? JSON.parse(user.metadata) : {}`. -/
def loadMetadata (db : DB) (uid : String) : Except ApiErr Json :=
  match (db uid).bind UserRec.metadata with
  | some s =>
      if s != "" then
        match jsonParse s with
        | .ok j => .ok j
        | .error e => .error (.parseFail e)
      else .ok (.obj [])
  | none => .ok (.obj [])

/-- `POST /metadata/update`: authenticate, read the record, deserialize a
truthy stored string (else start from `{}`), run the dot-path walk, persist
the serialized result.  An absent `path` raises where `path.split` is
reached, after the read. -/
def updateMetadata (session : Option String) (body : UpdateBody) (db : DB) :
    Outcome UpdateResp :=
  match session with
  | none => ⟨.error .unauthorized, db, []⟩
  | some uid =>
      if uid = "" then ⟨.error .unauthorized, db, []⟩
      else
        match loadMetadata db uid with
        | .error e => ⟨.error e, db, [.findOne uid]⟩
        | .ok meta0 =>
            match body.path with
            | none =>
                ⟨.error (.typeFail
                  "TypeError: Cannot read properties of undefined"),
                  db, [.findOne uid]⟩
            | some p =>
                match setPath meta0 p body.value with
                | .error msg => ⟨.error (.typeFail msg), db, [.findOne uid]⟩
                | .ok meta1 =>
                    let data := some (jsonStringify meta1)
                    ⟨.ok ⟨meta1, true⟩, dbWrite db uid data,
                      [.findOne uid, .update uid data]⟩

/-- `POST /metadata/delete`: authenticate, then persist a null metadata
column; no read is performed. -/
def deleteMetadata (session : Option String) (db : DB) :
    Outcome DeleteResp :=
  match session with
  | none => ⟨.error .unauthorized, db, []⟩
  | some uid =>
      if uid = "" then ⟨.error .unauthorized, db, []⟩
      else ⟨.ok ⟨true⟩, dbWrite db uid none, [.update uid none]⟩

/-- A store with no records. -/
def emptyDB : DB := fun _ => none

/-- Install (or replace) the record of `uid` with metadata column `v`. -/
def withUser (db : DB) (uid : String) (v : Option String) : DB :=
  fun id => if id = uid then some (UserRec.mk v) else db id

/-- Adapter calls that read. -/
def isReadOp : StorageOp → Bool
  | .findOne _ => true
  | .update _ _ => false

/-- Adapter calls that write. -/
def isWriteOp : StorageOp → Bool
  | .findOne _ => false
  | .update _ _ => true

/-- JSON primitives (neither mapping nor array). -/
def Json.isPrim : Json → Bool
  | .obj _ => false
  | .arr _ => false
  | _ => true

/-- Rightmost binding of a key in an entry list (the binding that survives
object construction from the entries). -/
def lastLookup (entries : List (String × Json)) (k : String) : Option Json :=
  match entries with
  | [] => none
  | (k', v) :: rest =>
      match lastLookup rest k with
      | some v' => some v'
      | none => if k' = k then some v else none

/-! ## Theorems -/

end MetadataPlugin

namespace MetadataPlugin

/-- Lookup after a JavaScript property insert. -/
theorem objLookup_objInsert (fs : List (String × Json)) (k : String)
    (v : Json) (q : String) :
    objLookup (objInsert fs k v) q =
      if k = q then some v else objLookup fs q := by
  induction fs with
  | nil => simp [objInsert, objLookup]
  | cons p rest ih =>
      obtain ⟨k', v'⟩ := p
      by_cases h : k' = k
      · subst h
        by_cases hq : k' = q <;> simp [objInsert, objLookup, hq]
      · by_cases hq : k' = q
        · subst hq
          have hk : ¬ k = k' := fun hh => h hh.symm
          simp [objInsert, objLookup, h, hk]
        · simp [objInsert, objLookup, h, hq, ih]

/-- Lookup through an entry fold is the rightmost binding, with the
accumulator as fallback. -/
theorem objLookup_foldl (es : List (String × Json))
    (acc : List (String × Json)) (q : String) :
    objLookup (es.foldl (fun a p => objInsert a p.1 p.2) acc) q =
      match lastLookup es q with
      | some v => some v
      | none => objLookup acc q := by
  induction es generalizing acc with
  | nil => simp [lastLookup]
  | cons p rest ih =>
      obtain ⟨k, v⟩ := p
      simp only [List.foldl, lastLookup]
      rw [ih]
      cases h : lastLookup rest q with
      | some v' => simp
      | none =>
          by_cases hk : k = q <;> simp [hk, objLookup_objInsert]

/-- The rightmost binding in an append. -/
theorem lastLookup_append (A B : List (String × Json)) (q : String) :
    lastLookup (A ++ B) q =
      match lastLookup B q with
      | some v => some v
      | none => lastLookup A q := by
  induction A with
  | nil => simp only [List.nil_append, lastLookup]; cases lastLookup B q <;> simp
  | cons p rest ih =>
      obtain ⟨k, v⟩ := p
      simp only [List.cons_append, lastLookup, List.append_eq]
      rw [ih]
      cases lastLookup B q <;> cases lastLookup rest q <;> simp

/-- A key not among the entries has no rightmost binding. -/
theorem lastLookup_eq_none (es : List (String × Json)) (q : String)
    (h : q ∉ es.map Prod.fst) : lastLookup es q = none := by
  induction es with
  | nil => rfl
  | cons p rest ih =>
      obtain ⟨k, v⟩ := p
      simp only [List.map, List.mem_cons, not_or] at h
      have hk : ¬ k = q := fun hh => h.1 hh.symm
      simp [lastLookup, ih h.2, hk]

/-- A key among the entries has a first binding. -/
theorem objLookup_isSome_of_mem (es : List (String × Json)) (q : String)
    (h : q ∈ es.map Prod.fst) : ∃ v, objLookup es q = some v := by
  induction es with
  | nil => simp at h
  | cons p rest ih =>
      obtain ⟨k, v⟩ := p
      by_cases hk : k = q
      · exact ⟨v, by simp [objLookup, hk]⟩
      · simp only [List.map, List.mem_cons] at h
        rcases h with h | h
        · exact absurd h.symm hk
        · obtain ⟨w, hw⟩ := ih h
          exact ⟨w, by simp [objLookup, hk, hw]⟩

/-- With no duplicate keys, rightmost and first binding agree. -/
theorem lastLookup_eq_objLookup (es : List (String × Json)) (q : String)
    (h : (es.map Prod.fst).Nodup) : lastLookup es q = objLookup es q := by
  induction es with
  | nil => rfl
  | cons p rest ih =>
      obtain ⟨k, v⟩ := p
      simp only [List.map, List.nodup_cons] at h
      by_cases hk : k = q
      · subst hk
        rw [show lastLookup ((k, v) :: rest) k =
            (match lastLookup rest k with
              | some v' => some v'
              | none => if k = k then some v else none) from rfl]
        rw [lastLookup_eq_none rest k h.1]
        simp [objLookup]
      · simp only [lastLookup, objLookup, ih h.2, hk]
        cases objLookup rest q <;> simp [hk]

/-- Claim C6: the merge of `setMetadata` is shallow: on a key present in
`incoming` the result carries `incoming`'s value wholesale, and keys only
in `existing` are preserved unchanged. -/
theorem claim_C6 (A B : List (String × Json)) (k : String)
    (hA : (A.map Prod.fst).Nodup) (hB : (B.map Prod.fst).Nodup) :
    jsGet (mergeSpread (Json.obj A) (some (Json.obj B))) k =
      if k ∈ B.map Prod.fst then objLookup B k else objLookup A k := by
  show objLookup ((A ++ B).foldl (fun a p => objInsert a p.1 p.2) []) k = _
  rw [objLookup_foldl, lastLookup_append]
  by_cases hk : k ∈ B.map Prod.fst
  · rw [lastLookup_eq_objLookup B k hB]
    obtain ⟨v, hv⟩ := objLookup_isSome_of_mem B k hk
    simp [hv, hk]
  · rw [lastLookup_eq_none B k hk, lastLookup_eq_objLookup A k hA]
    cases objLookup A k <;> simp [hk, objLookup]

/-- Claim C6 witness at concrete mappings. -/
theorem claim_C6_witness :
    jsGet (mergeSpread (Json.obj [("k", Json.num 1), ("x", Json.num 2)])
        (some (Json.obj [("k", Json.obj [("n", Json.num 3)])]))) "k" =
      some (Json.obj [("n", Json.num 3)]) ∧
    jsGet (mergeSpread (Json.obj [("k", Json.num 1), ("x", Json.num 2)])
        (some (Json.obj [("k", Json.obj [("n", Json.num 3)])]))) "x" =
      some (Json.num 2) :=
  ⟨(claim_C6 [("k", Json.num 1), ("x", Json.num 2)]
      [("k", Json.obj [("n", Json.num 3)])] "k"
      (by decide) (by decide)).trans (by rfl),
   (claim_C6 [("k", Json.num 1), ("x", Json.num 2)]
      [("k", Json.obj [("n", Json.num 3)])] "x"
      (by decide) (by decide)).trans (by rfl)⟩

/-- Claim C5: with no valid caller identity every endpoint returns
`Unauthorized`, leaves the store untouched, and issues no adapter call. -/
theorem claim_C5 (session : Option String) (b : SetBody) (ub : UpdateBody)
    (db : DB) (h : validSession session = false) :
    setMetadata session b db = ⟨.error .unauthorized, db, []⟩ ∧
    getMetadata session db = ⟨.error .unauthorized, db, []⟩ ∧
    updateMetadata session ub db = ⟨.error .unauthorized, db, []⟩ ∧
    deleteMetadata session db = ⟨.error .unauthorized, db, []⟩ := by
  cases session with
  | none => exact ⟨rfl, rfl, rfl, rfl⟩
  | some uid =>
      have huid : uid = "" := by
        simpa [validSession] using h
      subst huid
      exact ⟨rfl, rfl, rfl, rfl⟩

/-- Claim C5 witness at a concrete anonymous invocation. -/
theorem claim_C5_witness :
    setMetadata none ⟨none, none⟩ emptyDB =
      ⟨.error .unauthorized, emptyDB, []⟩ ∧
    getMetadata none emptyDB = ⟨.error .unauthorized, emptyDB, []⟩ ∧
    updateMetadata none ⟨none, Json.null⟩ emptyDB =
      ⟨.error .unauthorized, emptyDB, []⟩ ∧
    deleteMetadata none emptyDB = ⟨.error .unauthorized, emptyDB, []⟩ :=
  claim_C5 none ⟨none, none⟩ ⟨none, Json.null⟩ emptyDB (by decide)

/-- Claim C7: merge-mode `setMetadata` with no truthy stored metadata is
identical to replacement: same outcome as an explicit `merge: false` call,
the incoming value is persisted and returned as-is. -/
theorem claim_C7 (uid : String) (b : SetBody) (db : DB) (hu : uid ≠ "")
    (h : storedTruthy ((db uid).bind UserRec.metadata) = false) :
    setMetadata (some uid) b db =
      setMetadata (some uid) ⟨b.metadata, some (Json.bool false)⟩ db ∧
    (setMetadata (some uid) b db).result = .ok ⟨b.metadata, true⟩ ∧
    (setMetadata (some uid) b db).ops =
      [.findOne uid, .update uid (jsonStringifyOpt b.metadata)] := by
  cases hm : (db uid).bind UserRec.metadata with
  | none => refine ⟨?_, ?_, ?_⟩ <;> simp [setMetadata, hu, hm]
  | some s =>
      have hs : s = "" := by simpa [storedTruthy, hm] using h
      subst hs
      refine ⟨?_, ?_, ?_⟩ <;> simp [setMetadata, hu, hm, truthy]

/-- Claim C7 witness at a concrete first write. -/
theorem claim_C7_witness :
    (setMetadata (some "u1") ⟨some (Json.obj [("theme", Json.str "dark")]), none⟩
        (withUser emptyDB "u1" none)).result =
      .ok ⟨some (Json.obj [("theme", Json.str "dark")]), true⟩ :=
  (claim_C7 "u1" ⟨some (Json.obj [("theme", Json.str "dark")]), none⟩
    (withUser emptyDB "u1" none) (by decide) (by decide)).2.1

/-- Claim C9: `getMetadata` answers `null` for a caller with no record, and
`deleteMetadata` followed by `getMetadata` answers `null` for any caller. -/
theorem claim_C9 (uid : String) (db : DB) (hu : uid ≠ "") :
    (db uid = none →
      getMetadata (some uid) db = ⟨.ok ⟨Json.null⟩, db, [.findOne uid]⟩) ∧
    (getMetadata (some uid) (deleteMetadata (some uid) db).db).result =
      .ok ⟨Json.null⟩ := by
  constructor
  · intro h
    simp [getMetadata, hu, h]
  · cases hdb : db uid <;>
      simp [getMetadata, deleteMetadata, dbWrite, hu, hdb]

/-- Claim C9 witness: a fresh caller, then a delete-get round. -/
theorem claim_C9_witness :
    (getMetadata (some "u1") emptyDB =
      ⟨.ok ⟨Json.null⟩, emptyDB, [.findOne "u1"]⟩) ∧
    (getMetadata (some "u1")
        (deleteMetadata (some "u1")
          (withUser emptyDB "u1" (some "\x7b\"a\":1\x7d"))).db).result =
      .ok ⟨Json.null⟩ :=
  ⟨(claim_C9 "u1" emptyDB (by decide)).1 rfl,
   (claim_C9 "u1" (withUser emptyDB "u1" (some "\x7b\"a\":1\x7d"))
     (by decide)).2⟩

/-- Claim C10: a stored empty-string metadata column is treated by every
endpoint exactly like an absent one, because each tests the column for
truthiness: same responses, same adapter calls, and `updateMetadata` starts
its walk from the empty mapping. -/
theorem claim_C10 (uid : String) (db : DB) (b : SetBody) (ub : UpdateBody)
    (hu : uid ≠ "") :
    (getMetadata (some uid) (withUser db uid (some ""))).result =
        (getMetadata (some uid) (withUser db uid none)).result ∧
    (getMetadata (some uid) (withUser db uid (some ""))).result =
        .ok ⟨Json.null⟩ ∧
    (setMetadata (some uid) b (withUser db uid (some ""))).result =
        (setMetadata (some uid) b (withUser db uid none)).result ∧
    (setMetadata (some uid) b (withUser db uid (some ""))).ops =
        (setMetadata (some uid) b (withUser db uid none)).ops ∧
    loadMetadata (withUser db uid (some "")) uid = .ok (Json.obj []) ∧
    (updateMetadata (some uid) ub (withUser db uid (some ""))).result =
        (updateMetadata (some uid) ub (withUser db uid none)).result ∧
    (updateMetadata (some uid) ub (withUser db uid (some ""))).ops =
        (updateMetadata (some uid) ub (withUser db uid none)).ops ∧
    (deleteMetadata (some uid) (withUser db uid (some ""))).result =
        (deleteMetadata (some uid) (withUser db uid none)).result ∧
    (deleteMetadata (some uid) (withUser db uid (some ""))).ops =
        (deleteMetadata (some uid) (withUser db uid none)).ops := by
  refine ⟨?_, ?_, ?_, ?_, ?_, ?_, ?_, ?_, ?_⟩
  · simp [getMetadata, withUser, hu]
  · simp [getMetadata, withUser, hu]
  · simp [setMetadata, withUser, hu, truthy]
  · simp [setMetadata, withUser, hu, truthy]
  · simp [loadMetadata, withUser, hu]
  · simp [updateMetadata, loadMetadata, withUser, hu]
    cases hp : ub.path with
    | none => rfl
    | some p => cases hsp : setPath (Json.obj []) p ub.value <;> simp [hsp]
  · simp [updateMetadata, loadMetadata, withUser, hu]
    cases hp : ub.path with
    | none => rfl
    | some p => cases hsp : setPath (Json.obj []) p ub.value <;> simp [hsp]
  · simp [deleteMetadata, hu]
  · simp [deleteMetadata, hu]

/-- Claim C10 witness at a concrete caller with a stored empty string. -/
theorem claim_C10_witness :
    (getMetadata (some "u1") (withUser emptyDB "u1" (some ""))).result =
      .ok ⟨Json.null⟩ :=
  (claim_C10 "u1" emptyDB ⟨none, none⟩ ⟨none, Json.null⟩ (by decide)).2.1

/-- Claim C1 counterexample: at `setPath({a:"scalar"}, "a.b", 5)` the code
does not overwrite the truthy scalar with a mapping; the walk descends into
the string and the strict-mode assignment raises a `TypeError`, so the
claimed result `{a:{b:5}}` is not produced. -/
theorem claim_C1_counterexample :
    setPath (Json.obj [("a", Json.str "scalar")]) "a.b" (Json.num 5) =
      .error "TypeError: Cannot create property b" ∧
    setPath (Json.obj [("a", Json.str "scalar")]) "a.b" (Json.num 5) ≠
      .ok (Json.obj [("a", Json.obj [("b", Json.num 5)])]) :=
  ⟨rfl, fun h => nomatch h⟩

/-- Claim C1 amended: the walk overwrites an intermediate segment with a
fresh empty mapping only when its current value is falsy (absent, null,
false, 0 or the empty string); when the value is a truthy non-mapping
primitive the walk descends into it and the assignment raises a
`TypeError`. -/
theorem claim_C1 :
    (∀ (fs : List (String × Json)) (k1 k2 : String) (v : Json),
        truthyOpt (objLookup fs k1) = false →
        setPathKeys (Json.obj fs) [k1, k2] v =
          .ok (Json.obj (objInsert fs k1 (Json.obj [(k2, v)])))) ∧
    (∀ (fs : List (String × Json)) (k1 k2 : String) (v child : Json),
        objLookup fs k1 = some child → truthy child = true →
        child.isPrim = true →
        setPathKeys (Json.obj fs) [k1, k2] v =
          .error ("TypeError: Cannot create property " ++ k2)) := by
  constructor
  · intro fs k1 k2 v h
    simp only [setPathKeys, jsGet, h, if_false, Bool.false_eq_true, jsSet,
      objInsert]
  · intro fs k1 k2 v child hc ht hp
    cases child <;>
      simp_all [setPathKeys, jsGet, jsSet, truthyOpt, truthy, Json.isPrim]

/-- Claim C1 amended witness: the falsy scalar `""` is overwritten, the
truthy scalar `"scalar"` raises. -/
theorem claim_C1_witness :
    setPathKeys (Json.obj [("a", Json.str "")]) ["a", "b"] (Json.num 5) =
      .ok (Json.obj [("a", Json.obj [("b", Json.num 5)])]) ∧
    setPathKeys (Json.obj [("a", Json.str "scalar")]) ["a", "b"]
        (Json.num 5) =
      .error "TypeError: Cannot create property b" :=
  ⟨claim_C1.1 [("a", Json.str "")] "a" "b" (Json.num 5) (by decide),
   claim_C1.2 [("a", Json.str "scalar")] "a" "b" (Json.num 5)
     (Json.str "scalar") rfl rfl rfl⟩

/-- Claim C2: the code does not reject a missing or empty `path` with
`InvalidArgument`: an empty path silently creates a key named `""` and
persists it, and an absent path raises a `TypeError` after the read. -/
theorem claim_C2 :
    (updateMetadata (some "u1") ⟨some "", Json.num 5⟩
        (withUser emptyDB "u1" none)).result =
      .ok ⟨Json.obj [("", Json.num 5)], true⟩ ∧
    (updateMetadata (some "u1") ⟨some "", Json.num 5⟩
        (withUser emptyDB "u1" none)).ops =
      [.findOne "u1", .update "u1" (some "\x7b\"\":5\x7d")] ∧
    (updateMetadata (some "u1") ⟨none, Json.num 5⟩
        (withUser emptyDB "u1" none)).result =
      .error (.typeFail "TypeError: Cannot read properties of undefined") :=
  ⟨rfl, rfl, rfl⟩

/-- Claim C3 counterexample: `deleteMetadata` performs no read at all —
its trace is a single `update`, refuting "exactly one read (findOne)" for
every operation except `getMetadata`. -/
theorem claim_C3_counterexample :
    ((deleteMetadata (some "u1")
        (withUser emptyDB "u1" (some "\x7b\x7d"))).ops.filter isReadOp
      = []) ∧
    (deleteMetadata (some "u1")
        (withUser emptyDB "u1" (some "\x7b\x7d"))).ops =
      [.update "u1" none] :=
  ⟨rfl, rfl⟩

/-- Claim C3 amended: a completing `setMetadata` or `updateMetadata`
performs exactly one `findOne` followed by one `update`, both on the
caller's id; `deleteMetadata` performs zero reads and exactly one `update`
on the caller's id. -/
theorem claim_C3 :
    (∀ (uid : String) (b : SetBody) (db : DB) (r : SetResp),
        uid ≠ "" → (setMetadata (some uid) b db).result = .ok r →
        ∃ w, (setMetadata (some uid) b db).ops =
          [.findOne uid, .update uid w]) ∧
    (∀ (uid : String) (ub : UpdateBody) (db : DB) (r : UpdateResp),
        uid ≠ "" → (updateMetadata (some uid) ub db).result = .ok r →
        ∃ w, (updateMetadata (some uid) ub db).ops =
          [.findOne uid, .update uid w]) ∧
    (∀ (uid : String) (db : DB), uid ≠ "" →
        (deleteMetadata (some uid) db).ops = [.update uid none]) := by
  refine ⟨?_, ?_, ?_⟩
  · intro uid b db r hu hok
    cases hm : (db uid).bind UserRec.metadata with
    | none => exact ⟨jsonStringifyOpt b.metadata, by simp [setMetadata, hu, hm]⟩
    | some s =>
        by_cases hc :
            (truthy (b.merge.getD (Json.bool true)) && (s != "")) = true
        · cases hp : jsonParse s with
          | error msg =>
              exfalso
              simp [setMetadata, hu, hm, hc, hp] at hok
          | ok ex =>
              exact ⟨some (jsonStringify (mergeSpread ex b.metadata)),
                by simp [setMetadata, hu, hm, hc, hp, jsonStringifyOpt]⟩
        · have hc' :
              (truthy (b.merge.getD (Json.bool true)) && (s != "")) = false := by
            simpa using hc
          exact ⟨jsonStringifyOpt b.metadata,
            by simp [setMetadata, hu, hm, hc']⟩
  · intro uid ub db r hu hok
    cases hl : loadMetadata db uid with
    | error e =>
        exfalso
        simp [updateMetadata, hu, hl] at hok
    | ok m0 =>
        cases hp : ub.path with
        | none =>
            exfalso
            simp [updateMetadata, hu, hl, hp] at hok
        | some p =>
            cases hs : setPath m0 p ub.value with
            | error msg =>
                exfalso
                simp [updateMetadata, hu, hl, hp, hs] at hok
            | ok m1 =>
                exact ⟨some (jsonStringify m1),
                  by simp [updateMetadata, hu, hl, hp, hs]⟩
  · intro uid db hu
    simp [deleteMetadata, hu]

/-- Claim C3 amended witness at concrete completing calls. -/
theorem claim_C3_witness :
    (∃ w, (setMetadata (some "u1") ⟨some (Json.num 1), some (Json.bool false)⟩
        (withUser emptyDB "u1" none)).ops = [.findOne "u1", .update "u1" w]) ∧
    (∃ w, (updateMetadata (some "u1") ⟨some "a", Json.num 2⟩
        (withUser emptyDB "u1" none)).ops = [.findOne "u1", .update "u1" w]) ∧
    (deleteMetadata (some "u1") (withUser emptyDB "u1" none)).ops =
      [.update "u1" none] :=
  ⟨claim_C3.1 "u1" ⟨some (Json.num 1), some (Json.bool false)⟩
      (withUser emptyDB "u1" none) ⟨some (Json.num 1), true⟩ (by decide) rfl,
   claim_C3.2.1 "u1" ⟨some "a", Json.num 2⟩ (withUser emptyDB "u1" none)
      ⟨Json.obj [("a", Json.num 2)], true⟩ (by decide) rfl,
   claim_C3.2.2 "u1" (withUser emptyDB "u1" none) (by decide)⟩

/-- A successful walk that starts at a mapping ends at a mapping. -/
theorem setPathKeys_obj_isObj (fs : List (String × Json))
    (keys : List String) (v r : Json)
    (h : setPathKeys (Json.obj fs) keys v = .ok r) : r.isObj = true := by
  cases keys with
  | nil =>
      simp only [setPathKeys, Except.ok.injEq] at h
      subst h
      rfl
  | cons k rest =>
      cases rest with
      | nil =>
          simp only [setPathKeys, jsSet, Except.ok.injEq] at h
          subst h
          rfl
      | cons k2 rest2 =>
          simp only [setPathKeys, jsGet] at h
          by_cases hb : truthyOpt (objLookup fs k) = true
          · rw [if_pos hb] at h
            cases hg : objLookup fs k with
            | none => simp [hg] at h; subst h; rfl
            | some child =>
                rw [hg] at h
                cases hs : setPathKeys child (k2 :: rest2) v with
                | error e => simp [hs] at h
                | ok child' =>
                    simp only [hs, jsSet, Except.ok.injEq] at h
                    subst h
                    rfl
          · rw [if_neg hb] at h
            cases hs : setPathKeys (Json.obj []) (k2 :: rest2) v with
            | error e => simp [hs] at h
            | ok child' =>
                simp only [hs, jsSet, Except.ok.injEq] at h
                subst h
                rfl

/-- Claim C4 counterexample: replace-mode `setMetadata` with a scalar body
persists the serialized scalar `"5"`, which deserializes to a number, not a
mapping — the invariant is not maintained by the code. -/
theorem claim_C4_counterexample :
    (setMetadata (some "u1") ⟨some (Json.num 5), some (Json.bool false)⟩
        (withUser emptyDB "u1" none)).ops =
      [.findOne "u1", .update "u1" (some "5")] ∧
    jsonParse "5" = .ok (Json.num 5) ∧
    (Json.num 5).isObj = false :=
  ⟨rfl, rfl, rfl⟩

/-- Claim C4 amended: nothing validates the incoming value, so the
invariant only holds where the code forces it: the merge-with-existing
branch of `setMetadata` always persists a serialized mapping; the
replacement branch persists exactly the incoming serialization (a mapping
iff the incoming value is one); and a completing `updateMetadata` whose
loaded root is a mapping persists a serialized mapping. -/
theorem claim_C4 :
    (∀ (uid : String) (b : SetBody) (db : DB) (s : String) (ex : Json),
        uid ≠ "" → (db uid).bind UserRec.metadata = some s →
        (truthy (b.merge.getD (Json.bool true)) && (s != "")) = true →
        jsonParse s = .ok ex →
        (setMetadata (some uid) b db).ops =
          [.findOne uid,
            .update uid (some (jsonStringify (mergeSpread ex b.metadata)))] ∧
        (mergeSpread ex b.metadata).isObj = true) ∧
    (∀ (uid : String) (b : SetBody) (db : DB),
        uid ≠ "" →
        (∀ s, (db uid).bind UserRec.metadata = some s →
          (truthy (b.merge.getD (Json.bool true)) && (s != "")) = false) →
        (setMetadata (some uid) b db).ops =
          [.findOne uid, .update uid (jsonStringifyOpt b.metadata)]) ∧
    (∀ (uid : String) (ub : UpdateBody) (db : DB)
        (fs : List (String × Json)) (r : UpdateResp),
        uid ≠ "" → loadMetadata db uid = .ok (Json.obj fs) →
        (updateMetadata (some uid) ub db).result = .ok r →
        r.metadata.isObj = true ∧
        (updateMetadata (some uid) ub db).ops =
          [.findOne uid, .update uid (some (jsonStringify r.metadata))]) := by
  refine ⟨?_, ?_, ?_⟩
  · intro uid b db s ex hu hm hc hp
    constructor
    · simp [setMetadata, hu, hm, hc, hp, jsonStringifyOpt]
    · rfl
  · intro uid b db hu hfalsy
    cases hm : (db uid).bind UserRec.metadata with
    | none => simp [setMetadata, hu, hm]
    | some s => simp [setMetadata, hu, hm, hfalsy s hm]
  · intro uid ub db fs r hu hl hok
    cases hp : ub.path with
    | none =>
        exfalso
        simp [updateMetadata, hu, hl, hp] at hok
    | some p =>
        cases hs : setPath (Json.obj fs) p ub.value with
        | error msg =>
            exfalso
            simp [updateMetadata, hu, hl, hp, hs] at hok
        | ok m1 =>
            have hr : r = ⟨m1, true⟩ := by
              have := hok
              simp [updateMetadata, hu, hl, hp, hs] at this
              cases r
              simp_all
            subst hr
            refine ⟨setPathKeys_obj_isObj fs (splitDot p) ub.value m1 hs, ?_⟩
            simp [updateMetadata, hu, hl, hp, hs]

/-- Claim C4 amended witness at concrete calls. -/
theorem claim_C4_witness :
    ((setMetadata (some "u1") ⟨some (Json.obj [("b", Json.num 2)]), none⟩
        (withUser emptyDB "u1" (some "\x7b\"a\":1\x7d"))).ops =
      [.findOne "u1",
        .update "u1" (some "\x7b\"a\":1,\"b\":2\x7d")] ∧
      (mergeSpread (Json.obj [("a", Json.num 1)])
        (some (Json.obj [("b", Json.num 2)]))).isObj = true) ∧
    ((setMetadata (some "u1") ⟨some (Json.num 5), some (Json.bool false)⟩
        (withUser emptyDB "u1" (some "\x7b\"a\":1\x7d"))).ops =
      [.findOne "u1", .update "u1" (some "5")]) ∧
    ((⟨Json.obj [("a", Json.num 2)], true⟩ : UpdateResp).metadata.isObj
        = true ∧
      (updateMetadata (some "u1") ⟨some "a", Json.num 2⟩
          (withUser emptyDB "u1" none)).ops =
        [.findOne "u1", .update "u1" (some "\x7b\"a\":2\x7d")]) :=
  ⟨claim_C4.1 "u1" ⟨some (Json.obj [("b", Json.num 2)]), none⟩
      (withUser emptyDB "u1" (some "\x7b\"a\":1\x7d"))
      "\x7b\"a\":1\x7d" (Json.obj [("a", Json.num 1)])
      (by decide) rfl (by decide) rfl,
   claim_C4.2.1 "u1" ⟨some (Json.num 5), some (Json.bool false)⟩
      (withUser emptyDB "u1" (some "\x7b\"a\":1\x7d")) (by decide)
      (fun s hs => by
        simp only [Option.bind] at hs
        cases hs
        decide),
   claim_C4.2.2 "u1" ⟨some "a", Json.num 2⟩ (withUser emptyDB "u1" none)
      [] ⟨Json.obj [("a", Json.num 2)], true⟩ (by decide) rfl rfl⟩

/-- An erroring `setMetadata` leaves the store unchanged and issues no
write. -/
theorem setMetadata_error_frame (s : Option String) (b : SetBody) (db : DB)
    (e : ApiErr) (h : (setMetadata s b db).result = .error e) :
    (setMetadata s b db).db = db ∧
    (setMetadata s b db).ops.filter isWriteOp = [] := by
  cases s with
  | none => exact ⟨rfl, rfl⟩
  | some uid =>
      by_cases hu : uid = ""
      · subst hu; exact ⟨rfl, rfl⟩
      · cases hm : (db uid).bind UserRec.metadata with
        | none =>
            exfalso
            simp [setMetadata, hu, hm] at h
        | some s' =>
            by_cases hc :
                (truthy (b.merge.getD (Json.bool true)) && (s' != "")) = true
            · cases hp : jsonParse s' with
              | error msg =>
                  refine ⟨?_, ?_⟩ <;>
                    simp [setMetadata, hu, hm, hc, hp, isWriteOp]
              | ok ex =>
                  exfalso
                  simp [setMetadata, hu, hm, hc, hp] at h
            · have hc' :
                  (truthy (b.merge.getD (Json.bool true)) && (s' != ""))
                    = false := by
                simpa using hc
              exfalso
              simp [setMetadata, hu, hm, hc'] at h

/-- An erroring `getMetadata` leaves the store unchanged and issues no
write. -/
theorem getMetadata_error_frame (s : Option String) (db : DB) (e : ApiErr)
    (h : (getMetadata s db).result = .error e) :
    (getMetadata s db).db = db ∧
    (getMetadata s db).ops.filter isWriteOp = [] := by
  cases s with
  | none => exact ⟨rfl, rfl⟩
  | some uid =>
      by_cases hu : uid = ""
      · subst hu; exact ⟨rfl, rfl⟩
      · cases hm : (db uid).bind UserRec.metadata with
        | none =>
            exfalso
            simp [getMetadata, hu, hm] at h
        | some s' =>
            by_cases hs : s' = ""
            · subst hs
              exfalso
              simp [getMetadata, hu, hm] at h
            · cases hp : jsonParse s' with
              | error msg =>
                  refine ⟨?_, ?_⟩ <;>
                    simp [getMetadata, hu, hm, hs, hp, isWriteOp]
              | ok j =>
                  exfalso
                  simp [getMetadata, hu, hm, hs, hp] at h

/-- An erroring `updateMetadata` leaves the store unchanged and issues no
write. -/
theorem updateMetadata_error_frame (s : Option String) (ub : UpdateBody)
    (db : DB) (e : ApiErr)
    (h : (updateMetadata s ub db).result = .error e) :
    (updateMetadata s ub db).db = db ∧
    (updateMetadata s ub db).ops.filter isWriteOp = [] := by
  cases s with
  | none => exact ⟨rfl, rfl⟩
  | some uid =>
      by_cases hu : uid = ""
      · subst hu; exact ⟨rfl, rfl⟩
      · cases hl : loadMetadata db uid with
        | error e' =>
            refine ⟨?_, ?_⟩ <;> simp [updateMetadata, hu, hl, isWriteOp]
        | ok m0 =>
            cases hp : ub.path with
            | none =>
                refine ⟨?_, ?_⟩ <;>
                  simp [updateMetadata, hu, hl, hp, isWriteOp]
            | some p =>
                cases hs : setPath m0 p ub.value with
                | error msg =>
                    refine ⟨?_, ?_⟩ <;>
                      simp [updateMetadata, hu, hl, hp, hs, isWriteOp]
                | ok m1 =>
                    exfalso
                    simp [updateMetadata, hu, hl, hp, hs] at h

/-- An erroring `deleteMetadata` leaves the store unchanged and issues no
write. -/
theorem deleteMetadata_error_frame (s : Option String) (db : DB)
    (e : ApiErr) (h : (deleteMetadata s db).result = .error e) :
    (deleteMetadata s db).db = db ∧
    (deleteMetadata s db).ops.filter isWriteOp = [] := by
  cases s with
  | none => exact ⟨rfl, rfl⟩
  | some uid =>
      by_cases hu : uid = ""
      · subst hu; exact ⟨rfl, rfl⟩
      · exfalso
        simp [deleteMetadata, hu] at h

/-- Claim C8: every operation is atomic on error — an erroring invocation
performs no write and leaves the store unchanged — and a stored value that
is not valid JSON makes merge-mode `setMetadata` and `updateMetadata` fail
at deserialization with the propagated parse error. -/
theorem claim_C8 :
    (∀ (s : Option String) (b : SetBody) (db : DB) (e : ApiErr),
        (setMetadata s b db).result = .error e →
        (setMetadata s b db).db = db ∧
        (setMetadata s b db).ops.filter isWriteOp = []) ∧
    (∀ (s : Option String) (db : DB) (e : ApiErr),
        (getMetadata s db).result = .error e →
        (getMetadata s db).db = db ∧
        (getMetadata s db).ops.filter isWriteOp = []) ∧
    (∀ (s : Option String) (ub : UpdateBody) (db : DB) (e : ApiErr),
        (updateMetadata s ub db).result = .error e →
        (updateMetadata s ub db).db = db ∧
        (updateMetadata s ub db).ops.filter isWriteOp = []) ∧
    (∀ (s : Option String) (db : DB) (e : ApiErr),
        (deleteMetadata s db).result = .error e →
        (deleteMetadata s db).db = db ∧
        (deleteMetadata s db).ops.filter isWriteOp = []) ∧
    (∀ (uid : String) (b : SetBody) (db : DB) (s : String) (msg : String),
        uid ≠ "" → (db uid).bind UserRec.metadata = some s →
        (truthy (b.merge.getD (Json.bool true)) && (s != "")) = true →
        jsonParse s = .error msg →
        (setMetadata (some uid) b db).result = .error (.parseFail msg) ∧
        (setMetadata (some uid) b db).db = db) ∧
    (∀ (uid : String) (ub : UpdateBody) (db : DB) (s : String)
        (msg : String),
        uid ≠ "" → (db uid).bind UserRec.metadata = some s → s ≠ "" →
        jsonParse s = .error msg →
        (updateMetadata (some uid) ub db).result = .error (.parseFail msg) ∧
        (updateMetadata (some uid) ub db).db = db) := by
  refine ⟨setMetadata_error_frame, getMetadata_error_frame,
    updateMetadata_error_frame, deleteMetadata_error_frame, ?_, ?_⟩
  · intro uid b db s msg hu hm hc hp
    refine ⟨?_, ?_⟩ <;> simp [setMetadata, hu, hm, hc, hp]
  · intro uid ub db s msg hu hm hs hp
    have hl : loadMetadata db uid = .error (.parseFail msg) := by
      simp [loadMetadata, hm, hs, hp]
    refine ⟨?_, ?_⟩ <;> simp [updateMetadata, hu, hl]

/-- Claim C8 witness: unauthorized calls and calls on a stored corrupt
JSON value, all erroring with no write. -/
theorem claim_C8_witness :
    ((setMetadata none ⟨none, none⟩ emptyDB).db = emptyDB ∧
      (setMetadata none ⟨none, none⟩ emptyDB).ops.filter isWriteOp = []) ∧
    ((getMetadata none emptyDB).db = emptyDB ∧
      (getMetadata none emptyDB).ops.filter isWriteOp = []) ∧
    ((updateMetadata none ⟨none, Json.null⟩ emptyDB).db = emptyDB ∧
      (updateMetadata none ⟨none, Json.null⟩ emptyDB).ops.filter isWriteOp
        = []) ∧
    ((deleteMetadata none emptyDB).db = emptyDB ∧
      (deleteMetadata none emptyDB).ops.filter isWriteOp = []) ∧
    ((setMetadata (some "u1") ⟨some (Json.obj []), none⟩
        (withUser emptyDB "u1" (some "\x7b"))).result =
      .error (.parseFail "SyntaxError: Unexpected token in JSON") ∧
      (setMetadata (some "u1") ⟨some (Json.obj []), none⟩
        (withUser emptyDB "u1" (some "\x7b"))).db =
          withUser emptyDB "u1" (some "\x7b")) ∧
    ((updateMetadata (some "u1") ⟨some "a", Json.num 1⟩
        (withUser emptyDB "u1" (some "\x7b"))).result =
      .error (.parseFail "SyntaxError: Unexpected token in JSON") ∧
      (updateMetadata (some "u1") ⟨some "a", Json.num 1⟩
        (withUser emptyDB "u1" (some "\x7b"))).db =
          withUser emptyDB "u1" (some "\x7b")) :=
  ⟨claim_C8.1 none ⟨none, none⟩ emptyDB .unauthorized rfl,
   claim_C8.2.1 none emptyDB .unauthorized rfl,
   claim_C8.2.2.1 none ⟨none, Json.null⟩ emptyDB .unauthorized rfl,
   claim_C8.2.2.2.1 none emptyDB .unauthorized rfl,
   claim_C8.2.2.2.2.1 "u1" ⟨some (Json.obj []), none⟩
     (withUser emptyDB "u1" (some "\x7b")) "\x7b"
     "SyntaxError: Unexpected token in JSON" (by decide) rfl (by decide) rfl,
   claim_C8.2.2.2.2.2 "u1" ⟨some "a", Json.num 1⟩
     (withUser emptyDB "u1" (some "\x7b")) "\x7b"
     "SyntaxError: Unexpected token in JSON" (by decide) rfl (by decide)
     rfl⟩

end MetadataPlugin
